import Mathlib

/-!
Verification of the `npg-irods` data-object location and metadata-update CLI
workflows (`locate_data_objects.py`, `update_secondary_metadata.py`,
`apply_ont_metadata.py`) against their natural-language specification.

The Python workflows are shallowly embedded as pure state-transition
functions.  Each scanned warehouse component is paired with the response the
remote store would give if it were queried (an oracle for `query_metadata`),
and one workflow invocation is a left fold of the per-component step over the
event list.  Counters held in Python `defaultdict(int)` maps become functions
`Nat → Nat` with explicit pointwise update.
-/

/-- Illumina component key, mirroring the fields used by `illumina_updates`
(`c.id_run`, `c.position`, `c.tag_index`). -/
structure IlmComponent where
  id_run : Nat
  position : Nat
  tag_index : Nat
deriving DecidableEq, Repr

/-- Outcome of one `query_metadata` call for an Illumina component: either the
list of data-object paths found (possibly empty), or a raised exception. -/
inductive LookupOutcome where
  | ok (paths : List String)
  | err
deriving DecidableEq, Repr

/-- One scanned component together with what the store would answer for it. -/
abbrev IlmEvent := IlmComponent × LookupOutcome

/-- Mutable state of one `illumina_updates` invocation: the two counters, the
per-run maps `attempts_per_run` / `success_per_run`, the paths printed so far,
the run ids of store queries actually issued (in order), and the run ids of
informational skip events logged. -/
structure IlmState where
  num_processed : Nat
  num_errors : Nat
  attempts_per_run : Nat → Nat
  success_per_run : Nat → Nat
  output : List String
  queries : List Nat
  skips : List Nat

/-- Pointwise update of a counter map, as performed by `attempts_per_run[k] += 1`
and `success_per_run[k] += 1` on a `defaultdict(int)`. -/
def updateCount (f : Nat → Nat) (k v : Nat) : Nat → Nat :=
  fun x => if x = k then v else f x

/-- The guard on lines 230-234 of `locate_data_objects.py`:
`skip_absent_runs and success_per_run[c.id_run] == 0 and
attempts_per_run[c.id_run] == skip_absent_runs`. -/
def skipCond (skip_absent_runs : Nat) (st : IlmState) (c : IlmComponent) : Prop :=
  skip_absent_runs ≠ 0 ∧ st.success_per_run c.id_run = 0 ∧
    st.attempts_per_run c.id_run = skip_absent_runs

instance (n : Nat) (st : IlmState) (c : IlmComponent) : Decidable (skipCond n st c) := by
  unfold skipCond
  exact inferInstance

/-- One iteration of the `illumina_updates` loop body (lines 213-257):
`num_processed` is incremented unconditionally; if the skip guard holds the
component is skipped with an informational log and no store query; otherwise
the store is queried: an exception increments `num_errors` only, an empty
result increments `attempts_per_run[c.id_run]`, and a non-empty result
increments `success_per_run[c.id_run]` and prints the paths. -/
def ilmStep (skip_absent_runs : Nat) (st : IlmState) (ev : IlmEvent) : IlmState :=
  let c := ev.1
  if skipCond skip_absent_runs st c then
    { st with
      num_processed := st.num_processed + 1
      skips := st.skips ++ [c.id_run] }
  else
    match ev.2 with
    | .err =>
      { st with
        num_processed := st.num_processed + 1
        num_errors := st.num_errors + 1
        queries := st.queries ++ [c.id_run] }
    | .ok [] =>
      { st with
        num_processed := st.num_processed + 1
        attempts_per_run :=
          updateCount st.attempts_per_run c.id_run (st.attempts_per_run c.id_run + 1)
        queries := st.queries ++ [c.id_run] }
    | .ok (p :: ps) =>
      { st with
        num_processed := st.num_processed + 1
        success_per_run :=
          updateCount st.success_per_run c.id_run (st.success_per_run c.id_run + 1)
        output := st.output ++ (p :: ps)
        queries := st.queries ++ [c.id_run] }

/-- A whole `illumina_updates` invocation over a list of scanned components. -/
def ilmRun (skip_absent_runs : Nat) (evs : List IlmEvent) (st : IlmState) : IlmState :=
  evs.foldl (ilmStep skip_absent_runs) st

/-- Initial state of `illumina_updates`: counters zero, `defaultdict(int)`
maps everywhere zero, nothing printed, queried or skipped. -/
def ilmInit : IlmState :=
  { num_processed := 0
    num_errors := 0
    attempts_per_run := fun _ => 0
    success_per_run := fun _ => 0
    output := []
    queries := []
    skips := [] }

/-- Does this event belong to run `r`? -/
def isRun (r : Nat) (ev : IlmEvent) : Bool :=
  ev.1.id_run == r

/-- Is this event an empty-result lookup for run `r`? -/
def isEmptyFor (r : Nat) (ev : IlmEvent) : Bool :=
  ev.1.id_run == r &&
    match ev.2 with
    | .ok [] => true
    | _ => false

/-- Is this event a lookup for run `r` that returns at least one entity? -/
def isHitFor (r : Nat) (ev : IlmEvent) : Bool :=
  ev.1.id_run == r &&
    match ev.2 with
    | .ok (_ :: _) => true
    | _ => false

theorem updateCount_same (f : Nat → Nat) (k v : Nat) : updateCount f k v k = v := by
  simp [updateCount]

theorem updateCount_other (f : Nat → Nat) (k v x : Nat) (h : x ≠ k) :
    updateCount f k v x = f x := by
  simp [updateCount, h]

theorem ilmInit_num_processed : ilmInit.num_processed = 0 := rfl

theorem ilmInit_num_errors : ilmInit.num_errors = 0 := rfl

theorem ilmRun_nil (n : Nat) (st : IlmState) : ilmRun n [] st = st := rfl

theorem ilmRun_cons (n : Nat) (ev : IlmEvent) (evs : List IlmEvent) (st : IlmState) :
    ilmRun n (ev :: evs) st = ilmRun n evs (ilmStep n st ev) := rfl

theorem ilmRun_append (n : Nat) (p s : List IlmEvent) (st : IlmState) :
    ilmRun n (p ++ s) st = ilmRun n s (ilmRun n p st) :=
  List.foldl_append ..

theorem ilmStep_skip (n : Nat) (st : IlmState) (c : IlmComponent) (out : LookupOutcome)
    (h : skipCond n st c) :
    ilmStep n st (c, out) =
      { st with
        num_processed := st.num_processed + 1
        skips := st.skips ++ [c.id_run] } := by
  simp [ilmStep, h]

theorem ilmStep_err (n : Nat) (st : IlmState) (c : IlmComponent)
    (h : ¬ skipCond n st c) :
    ilmStep n st (c, .err) =
      { st with
        num_processed := st.num_processed + 1
        num_errors := st.num_errors + 1
        queries := st.queries ++ [c.id_run] } := by
  simp [ilmStep, h]

theorem ilmStep_empty (n : Nat) (st : IlmState) (c : IlmComponent)
    (h : ¬ skipCond n st c) :
    ilmStep n st (c, .ok []) =
      { st with
        num_processed := st.num_processed + 1
        attempts_per_run :=
          updateCount st.attempts_per_run c.id_run (st.attempts_per_run c.id_run + 1)
        queries := st.queries ++ [c.id_run] } := by
  simp [ilmStep, h]

theorem ilmStep_hit (n : Nat) (st : IlmState) (c : IlmComponent) (p : String)
    (ps : List String) (h : ¬ skipCond n st c) :
    ilmStep n st (c, .ok (p :: ps)) =
      { st with
        num_processed := st.num_processed + 1
        success_per_run :=
          updateCount st.success_per_run c.id_run (st.success_per_run c.id_run + 1)
        output := st.output ++ (p :: ps)
        queries := st.queries ++ [c.id_run] } := by
  simp [ilmStep, h]

theorem ilmStep_num_processed (n : Nat) (st : IlmState) (ev : IlmEvent) :
    (ilmStep n st ev).num_processed = st.num_processed + 1 := by
  obtain ⟨c, out⟩ := ev
  by_cases h : skipCond n st c
  · rw [ilmStep_skip n st c out h]
  · match out with
    | .err => rw [ilmStep_err n st c h]
    | .ok [] => rw [ilmStep_empty n st c h]
    | .ok (p :: ps) => rw [ilmStep_hit n st c p ps h]

theorem ilmStep_num_errors_le (n : Nat) (st : IlmState) (ev : IlmEvent) :
    (ilmStep n st ev).num_errors ≤ st.num_errors + 1 := by
  obtain ⟨c, out⟩ := ev
  by_cases h : skipCond n st c
  · rw [ilmStep_skip n st c out h]; exact Nat.le_succ _
  · match out with
    | .err => rw [ilmStep_err n st c h]
    | .ok [] => rw [ilmStep_empty n st c h]; exact Nat.le_succ _
    | .ok (p :: ps) => rw [ilmStep_hit n st c p ps h]; exact Nat.le_succ _

theorem ilmRun_counts (n : Nat) (evs : List IlmEvent) :
    ∀ st : IlmState,
      (ilmRun n evs st).num_processed = st.num_processed + evs.length ∧
      (ilmRun n evs st).num_errors ≤ st.num_errors + evs.length := by
  induction evs with
  | nil => intro st; simp [ilmRun_nil]
  | cons ev evs ih =>
    intro st
    rw [ilmRun_cons]
    obtain ⟨h1, h2⟩ := ih (ilmStep n st ev)
    have hp := ilmStep_num_processed n st ev
    have he := ilmStep_num_errors_le n st ev
    constructor
    · rw [h1, hp]; simp; omega
    · calc (ilmRun n evs (ilmStep n st ev)).num_errors
          ≤ (ilmStep n st ev).num_errors + evs.length := h2
        _ ≤ st.num_errors + 1 + evs.length := by omega
        _ = st.num_errors + (ev :: evs).length := by simp; omega

/-- Claim C10: in `illumina_updates`, `num_processed` is incremented for every
scanned component before any skip check, lookup or error can occur, so the
final `num_processed` equals the number of scanned components and
`num_errors ≤ num_processed`. -/
theorem claim_C10_num_processed_counts_all (n : Nat) (evs : List IlmEvent) :
    (∀ st ev, (ilmStep n st ev).num_processed = st.num_processed + 1) ∧
    (ilmRun n evs ilmInit).num_processed = evs.length ∧
    (ilmRun n evs ilmInit).num_errors ≤ (ilmRun n evs ilmInit).num_processed := by
  obtain ⟨h1, h2⟩ := ilmRun_counts n evs ilmInit
  rw [ilmInit_num_processed] at h1
  rw [ilmInit_num_errors] at h2
  refine ⟨fun st ev => ilmStep_num_processed n st ev, ?_, ?_⟩
  · omega
  · omega

/-- Concrete Illumina component used for witnesses and counterexamples. -/
def cex : IlmComponent := { id_run := 1, position := 1, tag_index := 0 }

/-- Claim C4: a store-query error is caught at the component boundary:
`num_errors` is incremented, the per-run attempt and success counters are
unchanged, nothing is printed, and processing continues with the next
component. -/
theorem claim_C4_store_error_isolated (n : Nat) (st : IlmState) (c : IlmComponent)
    (evs : List IlmEvent) (h : ¬ skipCond n st c) :
    (ilmStep n st (c, .err)).num_errors = st.num_errors + 1 ∧
    (∀ r, (ilmStep n st (c, .err)).attempts_per_run r = st.attempts_per_run r) ∧
    (∀ r, (ilmStep n st (c, .err)).success_per_run r = st.success_per_run r) ∧
    (ilmStep n st (c, .err)).num_processed = st.num_processed + 1 ∧
    (ilmStep n st (c, .err)).output = st.output ∧
    ilmRun n ((c, .err) :: evs) st = ilmRun n evs (ilmStep n st (c, .err)) := by
  refine ⟨?_, ?_, ?_, ?_, ?_, ilmRun_cons n (c, .err) evs st⟩ <;>
    simp [ilmStep_err n st c h]

/-- Witness for claim C4 at a concrete state where the run is not skipped. -/
theorem claim_C4_witness :
    (ilmStep 10 ilmInit (cex, .err)).num_errors = ilmInit.num_errors + 1 ∧
    (∀ r, (ilmStep 10 ilmInit (cex, .err)).attempts_per_run r = ilmInit.attempts_per_run r) ∧
    (∀ r, (ilmStep 10 ilmInit (cex, .err)).success_per_run r = ilmInit.success_per_run r) ∧
    (ilmStep 10 ilmInit (cex, .err)).num_processed = ilmInit.num_processed + 1 ∧
    (ilmStep 10 ilmInit (cex, .err)).output = ilmInit.output ∧
    ilmRun 10 [(cex, .err)] ilmInit = ilmRun 10 [] (ilmStep 10 ilmInit (cex, .err)) :=
  claim_C4_store_error_isolated 10 ilmInit cex [] (by decide)

/-- Claim C5: when the skip guard holds, the component is skipped with an
informational log event: `num_errors` is not incremented, no store query is
issued, and processing continues with the next component. -/
theorem claim_C5_skip_not_counted_as_error (n : Nat) (st : IlmState) (c : IlmComponent)
    (out : LookupOutcome) (evs : List IlmEvent) (h : skipCond n st c) :
    (ilmStep n st (c, out)).num_errors = st.num_errors ∧
    (ilmStep n st (c, out)).queries = st.queries ∧
    (ilmStep n st (c, out)).skips = st.skips ++ [c.id_run] ∧
    (ilmStep n st (c, out)).num_processed = st.num_processed + 1 ∧
    ilmRun n ((c, out) :: evs) st = ilmRun n evs (ilmStep n st (c, out)) := by
  refine ⟨?_, ?_, ?_, ?_, ilmRun_cons n (c, out) evs st⟩ <;>
    simp [ilmStep_skip n st c out h]

/-- State reached after two consecutive empty lookups for run 1 with
`skip_absent_runs = 2`; its skip guard holds for `cex`. -/
def stSkipW : IlmState := ilmRun 2 [(cex, .ok []), (cex, .ok [])] ilmInit

/-- Witness for claim C5 at a concrete state whose skip guard holds. -/
theorem claim_C5_witness :
    (ilmStep 2 stSkipW (cex, .ok [])).num_errors = stSkipW.num_errors ∧
    (ilmStep 2 stSkipW (cex, .ok [])).queries = stSkipW.queries ∧
    (ilmStep 2 stSkipW (cex, .ok [])).skips = stSkipW.skips ++ [cex.id_run] ∧
    (ilmStep 2 stSkipW (cex, .ok [])).num_processed = stSkipW.num_processed + 1 ∧
    ilmRun 2 [(cex, .ok [])] stSkipW = ilmRun 2 [] (ilmStep 2 stSkipW (cex, .ok [])) :=
  claim_C5_skip_not_counted_as_error 2 stSkipW cex (.ok []) [] (by decide)

/-- Counterexample to claim C2: after one empty lookup and one successful
lookup for run 1, `success_per_run 1 = 1` but `attempts_per_run 1 = 1`, so a
successful lookup did not reset the attempt counter to zero; and a further
zero-entity lookup increments the counter from 1 to 2 although the run has a
recorded success. -/
theorem claim_C2_counterexample :
    (ilmRun 10 [(cex, .ok []), (cex, .ok ["x"])] ilmInit).success_per_run 1 = 1 ∧
    (ilmRun 10 [(cex, .ok []), (cex, .ok ["x"])] ilmInit).attempts_per_run 1 = 1 ∧
    (ilmStep 10 (ilmRun 10 [(cex, .ok []), (cex, .ok ["x"])] ilmInit)
        (cex, .ok [])).attempts_per_run 1 = 2 := by
  decide

/-- Claim C2 (amended): the attempt counter for run `r` is incremented, by
one, exactly by an issued zero-entity lookup for `r` — regardless of the
run's success count; a successful lookup leaves the attempt counter unchanged
(it is not reset) and increments the success counter; the counter is never
decremented and counters of distinct runs are independent. -/
theorem claim_C2_attempt_counter_amended (n r : Nat) (st : IlmState) (c : IlmComponent)
    (out : LookupOutcome) :
    ((ilmStep n st (c, out)).attempts_per_run r = st.attempts_per_run r ∨
      (ilmStep n st (c, out)).attempts_per_run r = st.attempts_per_run r + 1) ∧
    ((ilmStep n st (c, out)).attempts_per_run r = st.attempts_per_run r + 1 ↔
      (c.id_run = r ∧ out = .ok [] ∧ ¬ skipCond n st c)) ∧
    (c.id_run ≠ r →
      (ilmStep n st (c, out)).attempts_per_run r = st.attempts_per_run r ∧
      (ilmStep n st (c, out)).success_per_run r = st.success_per_run r) ∧
    (∀ p ps, c.id_run = r → out = .ok (p :: ps) → ¬ skipCond n st c →
      (ilmStep n st (c, out)).attempts_per_run r = st.attempts_per_run r ∧
      (ilmStep n st (c, out)).success_per_run r = st.success_per_run r + 1) := by
  by_cases h : skipCond n st c
  · refine ⟨Or.inl ?_, ⟨fun habs => ?_, ?_⟩, fun _ => ⟨?_, ?_⟩,
      fun p ps _ _ hns => absurd h hns⟩
    · rw [ilmStep_skip n st c out h]
    · rw [ilmStep_skip n st c out h] at habs
      have habs' : st.attempts_per_run r = st.attempts_per_run r + 1 := habs
      omega
    · rintro ⟨_, _, hns⟩; exact absurd h hns
    · rw [ilmStep_skip n st c out h]
    · rw [ilmStep_skip n st c out h]
  · match out with
    | .err =>
      refine ⟨Or.inl ?_, ⟨fun habs => ?_, ?_⟩, fun _ => ⟨?_, ?_⟩,
        fun p ps _ hout _ => by cases hout⟩
      · rw [ilmStep_err n st c h]
      · rw [ilmStep_err n st c h] at habs
        have habs' : st.attempts_per_run r = st.attempts_per_run r + 1 := habs
        omega
      · rintro ⟨_, hout, _⟩; cases hout
      · rw [ilmStep_err n st c h]
      · rw [ilmStep_err n st c h]
    | .ok [] =>
      by_cases hr : c.id_run = r
      · subst hr
        refine ⟨Or.inr ?_, ⟨fun _ => ⟨rfl, rfl, h⟩, fun _ => ?_⟩,
          fun hne => absurd rfl hne, fun p ps _ hout _ => by cases hout⟩
        · rw [ilmStep_empty n st c h]
          exact updateCount_same ..
        · rw [ilmStep_empty n st c h]
          exact updateCount_same ..
      · have hr' : r ≠ c.id_run := fun hrr => hr hrr.symm
        refine ⟨Or.inl ?_, ⟨fun habs => ?_, ?_⟩, fun _ => ⟨?_, ?_⟩,
          fun p ps hcr _ _ => absurd hcr hr⟩
        · rw [ilmStep_empty n st c h]
          exact updateCount_other _ _ _ _ hr'
        · rw [ilmStep_empty n st c h] at habs
          have habs' : updateCount st.attempts_per_run c.id_run
              (st.attempts_per_run c.id_run + 1) r = st.attempts_per_run r + 1 := habs
          rw [updateCount_other _ _ _ _ hr'] at habs'
          omega
        · rintro ⟨hcr, _, _⟩; exact absurd hcr hr
        · rw [ilmStep_empty n st c h]
          exact updateCount_other _ _ _ _ hr'
        · rw [ilmStep_empty n st c h]
    | .ok (q :: qs) =>
      by_cases hr : c.id_run = r
      · subst hr
        refine ⟨Or.inl ?_, ⟨fun habs => ?_, ?_⟩, fun hne => absurd rfl hne, ?_⟩
        · rw [ilmStep_hit n st c q qs h]
        · rw [ilmStep_hit n st c q qs h] at habs
          have habs' : st.attempts_per_run c.id_run = st.attempts_per_run c.id_run + 1 :=
            habs
          omega
        · rintro ⟨_, hout, _⟩; cases hout
        · intro p ps _ hout _
          cases hout
          refine ⟨?_, ?_⟩
          · rw [ilmStep_hit n st c q qs h]
          · rw [ilmStep_hit n st c q qs h]
            exact updateCount_same ..
      · have hr' : r ≠ c.id_run := fun hrr => hr hrr.symm
        refine ⟨Or.inl ?_, ⟨fun habs => ?_, ?_⟩, fun _ => ⟨?_, ?_⟩,
          fun p ps hcr _ _ => absurd hcr hr⟩
        · rw [ilmStep_hit n st c q qs h]
        · rw [ilmStep_hit n st c q qs h] at habs
          have habs' : st.attempts_per_run r = st.attempts_per_run r + 1 := habs
          omega
        · rintro ⟨hcr, _, _⟩; exact absurd hcr hr
        · rw [ilmStep_hit n st c q qs h]
        · rw [ilmStep_hit n st c q qs h]
          exact updateCount_other _ _ _ _ hr'

/-- Witness for the amended claim C2: an issued zero-entity lookup for run 1
increments its attempt counter from 0 to 1. -/
theorem claim_C2_amended_witness :
    (ilmStep 10 ilmInit (cex, .ok [])).attempts_per_run 1 = ilmInit.attempts_per_run 1 + 1 :=
  (claim_C2_attempt_counter_amended 10 1 ilmInit cex (.ok [])).2.1.mpr
    ⟨rfl, rfl, by decide⟩

theorem count_snoc_same (l : List Nat) (r : Nat) : (l ++ [r]).count r = l.count r + 1 := by
  simp

theorem count_snoc_other (l : List Nat) (x r : Nat) (h : x ≠ r) :
    (l ++ [x]).count r = l.count r := by
  rw [List.count_append]
  have hz : [x].count r = 0 := by
    rw [List.count_eq_zero]
    intro hmem
    exact h (List.mem_singleton.mp hmem).symm
  omega

theorem ilmStep_other_run (n : Nat) (st : IlmState) (c : IlmComponent)
    (out : LookupOutcome) (r : Nat) (h : c.id_run ≠ r) :
    (ilmStep n st (c, out)).attempts_per_run r = st.attempts_per_run r ∧
    (ilmStep n st (c, out)).success_per_run r = st.success_per_run r ∧
    (ilmStep n st (c, out)).queries.count r = st.queries.count r ∧
    (ilmStep n st (c, out)).skips.count r = st.skips.count r := by
  by_cases hskip : skipCond n st c
  · rw [ilmStep_skip n st c out hskip]
    exact ⟨rfl, rfl, rfl, count_snoc_other _ _ _ h⟩
  · match out with
    | .err =>
      rw [ilmStep_err n st c hskip]
      exact ⟨rfl, rfl, count_snoc_other _ _ _ h, rfl⟩
    | .ok [] =>
      rw [ilmStep_empty n st c hskip]
      exact ⟨updateCount_other _ _ _ _ (fun hrr => h hrr.symm), rfl,
        count_snoc_other _ _ _ h, rfl⟩
    | .ok (q :: qs) =>
      rw [ilmStep_hit n st c q qs hskip]
      exact ⟨rfl, updateCount_other _ _ _ _ (fun hrr => h hrr.symm),
        count_snoc_other _ _ _ h, rfl⟩

theorem ilm_allEmpty (n r : Nat) (hN : 1 ≤ n) (evs : List IlmEvent) :
    ∀ st : IlmState,
      (∀ ev ∈ evs, isRun r ev = true → ev.2 = LookupOutcome.ok []) →
      st.success_per_run r = 0 →
      st.attempts_per_run r ≤ n →
      (ilmRun n evs st).attempts_per_run r
          = min (st.attempts_per_run r + evs.countP (isRun r)) n ∧
      (ilmRun n evs st).success_per_run r = 0 ∧
      (ilmRun n evs st).queries.count r
          = st.queries.count r
            + (min (st.attempts_per_run r + evs.countP (isRun r)) n
               - st.attempts_per_run r) ∧
      (ilmRun n evs st).queries.count r + (ilmRun n evs st).skips.count r
          = st.queries.count r + st.skips.count r + evs.countP (isRun r) := by
  induction evs with
  | nil =>
    intro st _ hs ha
    rw [ilmRun_nil]
    refine ⟨?_, hs, ?_, ?_⟩ <;> simp only [List.countP_nil, Nat.add_zero] <;> omega
  | cons ev evs ih =>
    intro st hall hs ha
    obtain ⟨c, out⟩ := ev
    rw [ilmRun_cons]
    have hall' : ∀ e ∈ evs, isRun r e = true → e.2 = LookupOutcome.ok [] :=
      fun e he hr => hall e (List.mem_cons_of_mem _ he) hr
    by_cases hrun : c.id_run = r
    · subst hrun
      have hout : out = LookupOutcome.ok [] :=
        hall (c, out) (List.mem_cons_self _ _) (by simp [isRun])
      subst hout
      have hcount : ((c, LookupOutcome.ok []) :: evs).countP (isRun c.id_run)
          = evs.countP (isRun c.id_run) + 1 := by
        simp [List.countP_cons, isRun]
      by_cases hskip : skipCond n st c
      · have hAttN : st.attempts_per_run c.id_run = n := hskip.2.2
        rw [ilmStep_skip n st c (.ok []) hskip]
        obtain ⟨h1, h2, h3, h4⟩ := ih
          { st with
            num_processed := st.num_processed + 1
            skips := st.skips ++ [c.id_run] }
          hall' hs ha
        simp only [] at h1 h3 h4
        rw [count_snoc_same] at h4
        rw [hcount]
        exact ⟨by omega, h2, by omega, by omega⟩
      · have hAttLt : st.attempts_per_run c.id_run < n := by
          rcases Nat.lt_or_ge (st.attempts_per_run c.id_run) n with hlt | hge
          · exact hlt
          · exact absurd ⟨by omega, hs, by omega⟩ hskip
        rw [ilmStep_empty n st c hskip]
        obtain ⟨h1, h2, h3, h4⟩ := ih
          { st with
            num_processed := st.num_processed + 1
            attempts_per_run :=
              updateCount st.attempts_per_run c.id_run (st.attempts_per_run c.id_run + 1)
            queries := st.queries ++ [c.id_run] }
          hall' hs (by simp only []; rw [updateCount_same]; omega)
        simp only [] at h1 h3 h4
        rw [updateCount_same] at h1 h3
        rw [count_snoc_same] at h3 h4
        rw [hcount]
        exact ⟨by omega, h2, by omega, by omega⟩
    · have hcount : ((c, out) :: evs).countP (isRun r) = evs.countP (isRun r) := by
        simp [List.countP_cons, isRun, hrun]
      obtain ⟨e1, e2, e3, e4⟩ := ilmStep_other_run n st c out r hrun
      obtain ⟨h1, h2, h3, h4⟩ := ih (ilmStep n st (c, out)) hall' (by rw [e2]; exact hs)
        (by rw [e1]; exact ha)
      rw [e1] at h1
      rw [e1, e3] at h3
      rw [e3, e4] at h4
      rw [hcount]
      exact ⟨h1, h2, h3, h4⟩

theorem ilmInit_queries : ilmInit.queries = [] := rfl

theorem ilmInit_skips : ilmInit.skips = [] := rfl

theorem ilmInit_attempts (r : Nat) : ilmInit.attempts_per_run r = 0 := rfl

theorem ilmInit_success (r : Nat) : ilmInit.success_per_run r = 0 := rfl

theorem ilm_prefix_no_hit (n r : Nat) (p : List IlmEvent) :
    ∀ st : IlmState,
      (∀ ev ∈ p, isHitFor r ev = false) →
      st.success_per_run r = 0 →
      st.attempts_per_run r + p.countP (isEmptyFor r) < n →
      st.skips.count r = 0 →
      (ilmRun n p st).success_per_run r = 0 ∧
      (ilmRun n p st).skips.count r = 0 ∧
      (ilmRun n p st).attempts_per_run r
        ≤ st.attempts_per_run r + p.countP (isEmptyFor r) := by
  induction p with
  | nil =>
    intro st _ hs hb hz
    rw [ilmRun_nil]
    exact ⟨hs, hz, by simp⟩
  | cons ev p ih =>
    intro st hall hs hb hz
    obtain ⟨c, out⟩ := ev
    have hall' : ∀ e ∈ p, isHitFor r e = false :=
      fun e he => hall e (List.mem_cons_of_mem _ he)
    rw [ilmRun_cons]
    by_cases hrun : c.id_run = r
    · subst hrun
      match out with
      | .ok (q :: qs) =>
        exact absurd (hall (c, .ok (q :: qs)) (List.mem_cons_self _ _))
          (by simp [isHitFor])
      | .ok [] =>
        have hcount : ((c, LookupOutcome.ok []) :: p).countP (isEmptyFor c.id_run)
            = p.countP (isEmptyFor c.id_run) + 1 := by
          simp [List.countP_cons, isEmptyFor]
        rw [hcount] at hb ⊢
        have hsk : ¬ skipCond n st c := by
          intro hskip
          have h22 := hskip.2.2
          omega
        rw [ilmStep_empty n st c hsk]
        obtain ⟨h1, h2, h3⟩ := ih
          { st with
            num_processed := st.num_processed + 1
            attempts_per_run :=
              updateCount st.attempts_per_run c.id_run (st.attempts_per_run c.id_run + 1)
            queries := st.queries ++ [c.id_run] }
          hall' hs (by simp only []; rw [updateCount_same]; omega) hz
        simp only [] at h3
        rw [updateCount_same] at h3
        exact ⟨h1, h2, by omega⟩
      | .err =>
        have hcount : ((c, LookupOutcome.err) :: p).countP (isEmptyFor c.id_run)
            = p.countP (isEmptyFor c.id_run) := by
          simp [List.countP_cons, isEmptyFor]
        rw [hcount] at hb ⊢
        have hsk : ¬ skipCond n st c := by
          intro hskip
          have h22 := hskip.2.2
          omega
        rw [ilmStep_err n st c hsk]
        obtain ⟨h1, h2, h3⟩ := ih
          { st with
            num_processed := st.num_processed + 1
            num_errors := st.num_errors + 1
            queries := st.queries ++ [c.id_run] }
          hall' hs (by simp only []; omega) hz
        simp only [] at h3
        exact ⟨h1, h2, h3⟩
    · have hcount : ((c, out) :: p).countP (isEmptyFor r) = p.countP (isEmptyFor r) := by
        simp [List.countP_cons, isEmptyFor, hrun]
      rw [hcount] at hb ⊢
      obtain ⟨e1, e2, e3, e4⟩ := ilmStep_other_run n st c out r hrun
      obtain ⟨h1, h2, h3⟩ := ih (ilmStep n st (c, out)) hall' (by rw [e2]; exact hs)
        (by rw [e1]; omega) (by rw [e4]; exact hz)
      rw [e1] at h3
      exact ⟨h1, h2, h3⟩

theorem ilm_after_success (n r : Nat) (s : List IlmEvent) :
    ∀ st : IlmState, 1 ≤ st.success_per_run r →
      (ilmRun n s st).skips.count r = st.skips.count r ∧
      1 ≤ (ilmRun n s st).success_per_run r := by
  induction s with
  | nil =>
    intro st hs
    rw [ilmRun_nil]
    exact ⟨rfl, hs⟩
  | cons ev s ih =>
    intro st hs
    obtain ⟨c, out⟩ := ev
    rw [ilmRun_cons]
    by_cases hrun : c.id_run = r
    · subst hrun
      have hsk : ¬ skipCond n st c := by
        intro hskip
        have h21 := hskip.2.1
        omega
      match out with
      | .err =>
        rw [ilmStep_err n st c hsk]
        obtain ⟨h1, h2⟩ := ih
          { st with
            num_processed := st.num_processed + 1
            num_errors := st.num_errors + 1
            queries := st.queries ++ [c.id_run] }
          hs
        simp only [] at h1
        exact ⟨h1, h2⟩
      | .ok [] =>
        rw [ilmStep_empty n st c hsk]
        obtain ⟨h1, h2⟩ := ih
          { st with
            num_processed := st.num_processed + 1
            attempts_per_run :=
              updateCount st.attempts_per_run c.id_run (st.attempts_per_run c.id_run + 1)
            queries := st.queries ++ [c.id_run] }
          hs
        simp only [] at h1
        exact ⟨h1, h2⟩
      | .ok (q :: qs) =>
        rw [ilmStep_hit n st c q qs hsk]
        obtain ⟨h1, h2⟩ := ih
          { st with
            num_processed := st.num_processed + 1
            success_per_run :=
              updateCount st.success_per_run c.id_run (st.success_per_run c.id_run + 1)
            output := st.output ++ (q :: qs)
            queries := st.queries ++ [c.id_run] }
          (by simp only []; rw [updateCount_same]; omega)
        simp only [] at h1
        exact ⟨h1, h2⟩
    · obtain ⟨e1, e2, e3, e4⟩ := ilmStep_other_run n st c out r hrun
      obtain ⟨h1, h2⟩ := ih (ilmStep n st (c, out)) (by rw [e2]; exact hs)
      rw [e4] at h1
      exact ⟨h1, h2⟩

/-- Claim C1: with `skip_absent_runs = n` in `[1,100]`, a run `r` all of whose
lookups return zero entities is queried exactly `min (number of r components) n`
times — so at most `n` times, with every later component of `r` skipped — and
every scanned component of `r` either issues a query or logs a skip; while a
run whose first successful lookup is preceded by fewer than `n` zero-entity
lookups (and no earlier success) never logs a skip event in the invocation. -/
theorem claim_C1_retry_skip_bound (n r : Nat) (evs : List IlmEvent)
    (hN1 : 1 ≤ n) (hN2 : n ≤ 100) :
    ((∀ ev ∈ evs, isRun r ev = true → ev.2 = LookupOutcome.ok []) →
      (ilmRun n evs ilmInit).queries.count r = min (evs.countP (isRun r)) n ∧
      (ilmRun n evs ilmInit).queries.count r + (ilmRun n evs ilmInit).skips.count r
        = evs.countP (isRun r)) ∧
    (∀ (pfx : List IlmEvent) (c : IlmComponent) (q : String) (qs : List String)
        (sfx : List IlmEvent),
      evs = pfx ++ (c, LookupOutcome.ok (q :: qs)) :: sfx →
      c.id_run = r →
      (∀ ev ∈ pfx, isHitFor r ev = false) →
      pfx.countP (isEmptyFor r) < n →
      (ilmRun n evs ilmInit).skips.count r = 0) := by
  constructor
  · intro hall
    obtain ⟨h1, h2, h3, h4⟩ :=
      ilm_allEmpty n r hN1 evs ilmInit hall rfl (Nat.zero_le n)
    rw [ilmInit_queries] at h3 h4
    rw [ilmInit_skips] at h4
    rw [ilmInit_attempts] at h3
    simp only [List.count_nil, Nat.add_zero, Nat.zero_add, Nat.sub_zero] at h3 h4
    exact ⟨by omega, by omega⟩
  · intro pfx c q qs sfx heq hcr hnohit hlt
    subst heq
    subst hcr
    rw [ilmRun_append]
    obtain ⟨hs1, hz1, ha1⟩ := ilm_prefix_no_hit n c.id_run pfx ilmInit hnohit rfl
      (by rw [ilmInit_attempts]; omega) (by rw [ilmInit_skips]; simp)
    rw [ilmInit_attempts] at ha1
    rw [ilmRun_cons]
    have hsk : ¬ skipCond n (ilmRun n pfx ilmInit) c := by
      intro hskip
      have h22 := hskip.2.2
      omega
    rw [ilmStep_hit n (ilmRun n pfx ilmInit) c q qs hsk]
    obtain ⟨h1, h2⟩ := ilm_after_success n c.id_run sfx
      { ilmRun n pfx ilmInit with
        num_processed := (ilmRun n pfx ilmInit).num_processed + 1
        success_per_run :=
          updateCount (ilmRun n pfx ilmInit).success_per_run c.id_run
            ((ilmRun n pfx ilmInit).success_per_run c.id_run + 1)
        output := (ilmRun n pfx ilmInit).output ++ (q :: qs)
        queries := (ilmRun n pfx ilmInit).queries ++ [c.id_run] }
      (by simp only []; rw [updateCount_same]; omega)
    simp only [] at h1
    rw [h1]
    exact hz1

/-- Event list for the C1 witness: three zero-entity lookups for run 1. -/
def evsW : List IlmEvent := [(cex, .ok []), (cex, .ok []), (cex, .ok [])]

/-- Witness for claim C1 with `skip_absent_runs = 2`: of the three scanned
components of run 1, exactly `min 3 2 = 2` issue store queries and the
remaining one is skipped. -/
theorem claim_C1_witness :
    (ilmRun 2 evsW ilmInit).queries.count 1 = min (evsW.countP (isRun 1)) 2 ∧
    (ilmRun 2 evsW ilmInit).queries.count 1 + (ilmRun 2 evsW ilmInit).skips.count 1
      = evsW.countP (isRun 1) :=
  (claim_C1_retry_skip_bound 2 1 evsW (by decide) (by decide)).1 (by decide)

/-- An iRODS item as seen by `consent_withdrawn`: a path together with whether
its `rods_type` is `DataObject`. -/
structure CwItem where
  path : String
  isDataObject : Bool
deriving DecidableEq, Repr

/-- A collection matched by the sample-metadata query, with the items yielded
by `coll.iter_contents(recurse=True)`. -/
structure CwColl where
  path : String
  contents : List CwItem
deriving DecidableEq, Repr

/-- A warehouse record from `find_consent_withdrawn_samples`: only the field
`consent_withdrawn` reads, `id_sample_lims`, is modelled. -/
structure CwSample where
  id_sample_lims : Option String
deriving DecidableEq, Repr

/-- Store oracle for one sample: the data objects returned by the first
`query_metadata` call, the collections (with recursive contents) returned by
the second, and whether an exception interrupted the `try` block after those
results were yielded. -/
structure CwOutcome where
  objs : List CwItem
  colls : List CwColl
  errored : Bool
deriving DecidableEq, Repr

/-- Paths printed for one sample (lines 137-147 of `locate_data_objects.py`):
every result of the data-object query, then for each matched collection the
recursively iterated contents restricted to items whose `rods_type` is
`DataObject`.  The collection path itself is never printed here. -/
def printedFor (out : CwOutcome) : List String :=
  (out.objs.map fun it => it.path) ++
    out.colls.flatMap fun cl =>
      (cl.contents.filter fun it => it.isDataObject).map fun it => it.path

/-- State of one `consent_withdrawn` invocation; `queried` counts the records
for which a store query was issued. -/
structure CwState where
  num_processed : Nat
  num_errors : Nat
  output : List String
  queried : Nat
deriving DecidableEq, Repr

/-- One iteration of the `consent_withdrawn` loop body (lines 125-150):
`num_processed` is incremented; a record with `id_sample_lims is None` is
counted as an error and skipped with no store query; otherwise the store is
queried, the selected paths are printed, and an exception inside the `try`
block increments `num_errors`. -/
def cwStep (st : CwState) (ev : CwSample × CwOutcome) : CwState :=
  match ev.1.id_sample_lims with
  | none =>
    { st with
      num_processed := st.num_processed + 1
      num_errors := st.num_errors + 1 }
  | some _ =>
    { st with
      num_processed := st.num_processed + 1
      num_errors := if ev.2.errored then st.num_errors + 1 else st.num_errors
      output := st.output ++ printedFor ev.2
      queried := st.queried + 1 }

/-- A whole `consent_withdrawn` invocation. -/
def cwRun (evs : List (CwSample × CwOutcome)) (st : CwState) : CwState :=
  evs.foldl cwStep st

/-- Initial `consent_withdrawn` state. -/
def cwInit : CwState :=
  { num_processed := 0, num_errors := 0, output := [], queried := 0 }

/-- Claim C6: a warehouse record whose `id_sample_lims` is absent is counted
as an error and skipped without issuing any store query, nothing is printed
for it, and processing continues with the remaining records. -/
theorem claim_C6_missing_identifier (s : CwSample) (out : CwOutcome) (st : CwState)
    (evs : List (CwSample × CwOutcome)) (h : s.id_sample_lims = none) :
    (cwStep st (s, out)).num_errors = st.num_errors + 1 ∧
    (cwStep st (s, out)).queried = st.queried ∧
    (cwStep st (s, out)).output = st.output ∧
    (cwStep st (s, out)).num_processed = st.num_processed + 1 ∧
    cwRun ((s, out) :: evs) st = cwRun evs (cwStep st (s, out)) := by
  refine ⟨?_, ?_, ?_, ?_, rfl⟩ <;> simp [cwStep, h]

/-- Concrete outcome used in witnesses: one data object, one collection whose
contents hold one data object and one sub-collection. -/
def outW : CwOutcome :=
  { objs := [{ path := "zone/a.cram", isDataObject := true }]
    colls := [{ path := "zone/run1"
                contents := [{ path := "zone/run1/b.cram", isDataObject := true },
                             { path := "zone/run1/sub", isDataObject := false }] }]
    errored := false }

/-- Witness for claim C6 on a record with a missing identifier. -/
theorem claim_C6_witness :
    (cwStep cwInit ({ id_sample_lims := none }, outW)).num_errors = cwInit.num_errors + 1 ∧
    (cwStep cwInit ({ id_sample_lims := none }, outW)).queried = cwInit.queried ∧
    (cwStep cwInit ({ id_sample_lims := none }, outW)).output = cwInit.output ∧
    (cwStep cwInit ({ id_sample_lims := none }, outW)).num_processed = cwInit.num_processed + 1 ∧
    cwRun [({ id_sample_lims := none }, outW)] cwInit
      = cwRun [] (cwStep cwInit ({ id_sample_lims := none }, outW)) :=
  claim_C6_missing_identifier { id_sample_lims := none } outW cwInit [] rfl

/-- Claim C9: every path printed by `consent_withdrawn` is a data-object path —
results of the data-object-only query, or items of a matched collection's
recursive contents whose type is a data object — and a matched collection's
own path is never printed.  The hypotheses are the store client's contract:
the data-object query returns only data objects, and no collection path
coincides with a data-object path in the response. -/
theorem claim_C9_prints_only_data_objects (out : CwOutcome)
    (hObjs : ∀ it ∈ out.objs, it.isDataObject = true)
    (hSelf : ∀ cl ∈ out.colls,
      (∀ it ∈ out.objs, it.path ≠ cl.path) ∧
      (∀ cl2 ∈ out.colls, ∀ it ∈ cl2.contents, it.isDataObject = true → it.path ≠ cl.path)) :
    (∀ pth ∈ printedFor out, ∃ it : CwItem, it.isDataObject = true ∧ it.path = pth ∧
      (it ∈ out.objs ∨ ∃ cl ∈ out.colls, it ∈ cl.contents)) ∧
    (∀ cl ∈ out.colls, cl.path ∉ printedFor out) ∧
    (∀ (s : CwSample) (x : String) (st : CwState), s.id_sample_lims = some x →
      (cwStep st (s, out)).output = st.output ++ printedFor out) := by
  refine ⟨?_, ?_, ?_⟩
  · intro pth hmem
    rw [printedFor, List.mem_append] at hmem
    rcases hmem with hmem | hmem
    · rw [List.mem_map] at hmem
      obtain ⟨it, hit, hpath⟩ := hmem
      exact ⟨it, hObjs it hit, hpath, Or.inl hit⟩
    · rw [List.mem_flatMap] at hmem
      obtain ⟨cl, hcl, hmem⟩ := hmem
      rw [List.mem_map] at hmem
      obtain ⟨it, hit, hpath⟩ := hmem
      rw [List.mem_filter] at hit
      exact ⟨it, hit.2, hpath, Or.inr ⟨cl, hcl, hit.1⟩⟩
  · intro cl hcl hmem
    rw [printedFor, List.mem_append] at hmem
    rcases hmem with hmem | hmem
    · rw [List.mem_map] at hmem
      obtain ⟨it, hit, hpath⟩ := hmem
      exact (hSelf cl hcl).1 it hit hpath
    · rw [List.mem_flatMap] at hmem
      obtain ⟨cl2, hcl2, hmem⟩ := hmem
      rw [List.mem_map] at hmem
      obtain ⟨it, hit, hpath⟩ := hmem
      rw [List.mem_filter] at hit
      exact (hSelf cl hcl).2 cl2 hcl2 it hit.1 hit.2 hpath
  · intro s x st hx
    simp [cwStep, hx]

/-- Witness for claim C9 on the concrete outcome `outW`. -/
theorem claim_C9_witness :
    (cwStep cwInit ({ id_sample_lims := some "SAMPLE_01" }, outW)).output
      = cwInit.output ++ printedFor outW :=
  (claim_C9_prints_only_data_objects outW (by decide) (by decide)).2.2
    { id_sample_lims := some "SAMPLE_01" } "SAMPLE_01" cwInit rfl

/-- ONT component key, mirroring the fields used by `ont_updates`
(`c.experiment_name`, `c.instrument_slot`, `c.tag_identifier`). -/
structure OntComponent where
  experiment_name : String
  instrument_slot : Nat
  tag_identifier : Option String
deriving DecidableEq, Repr

/-- Outcome of the collection query for an ONT component: the matched
collection paths, or a raised exception. -/
inductive OntOutcome where
  | ok (colls : List String)
  | err
deriving DecidableEq, Repr

/-- State of one `ont_updates` invocation. -/
structure OntState where
  num_processed : Nat
  num_errors : Nat
  output : List String
deriving DecidableEq, Repr

/-- Paths printed for one ONT component's matched collections
(lines 325-334 of `locate_data_objects.py`): the per-barcode sub-collections
computed by `barcode_collections` when tag-level reporting was requested and
the component carries a tag identifier, and the run-folder collection path
itself otherwise.  The expansion function `bc` stands for
`npg_irods.ont.barcode_collections`, an external collaborator here. -/
def ontPrintFor (report_tags : Bool) (bc : String → String → List String)
    (c : OntComponent) (colls : List String) : List String :=
  colls.flatMap fun coll =>
    match report_tags, c.tag_identifier with
    | true, some tag => bc coll tag
    | _, _ => [coll]

/-- One iteration of the `ont_updates` loop body (lines 307-338). -/
def ontStep (report_tags : Bool) (bc : String → String → List String)
    (st : OntState) (ev : OntComponent × OntOutcome) : OntState :=
  match ev.2 with
  | .err =>
    { st with
      num_processed := st.num_processed + 1
      num_errors := st.num_errors + 1 }
  | .ok colls =>
    { st with
      num_processed := st.num_processed + 1
      output := st.output ++ ontPrintFor report_tags bc ev.1 colls }

/-- A whole `ont_updates` invocation. -/
def ontRun (report_tags : Bool) (bc : String → String → List String)
    (evs : List (OntComponent × OntOutcome)) (st : OntState) : OntState :=
  evs.foldl (ontStep report_tags bc) st

/-- Initial `ont_updates` state. -/
def ontInit : OntState := { num_processed := 0, num_errors := 0, output := [] }

/-- Claim C8: barcode expansion is applied exactly when the caller requested
tag-level reporting and the component carries a tag identifier; in every
other case the parent run-folder collection paths are printed unchanged. -/
theorem claim_C8_barcode_expansion_guard (report_tags : Bool)
    (bc : String → String → List String) (c : OntComponent) (colls : List String) :
    (∀ tag, report_tags = true → c.tag_identifier = some tag →
      ontPrintFor report_tags bc c colls = colls.flatMap fun coll => bc coll tag) ∧
    ((report_tags = false ∨ c.tag_identifier = none) →
      ontPrintFor report_tags bc c colls = colls) ∧
    (∀ st : OntState, (ontStep report_tags bc st (c, .ok colls)).output
      = st.output ++ ontPrintFor report_tags bc c colls) := by
  refine ⟨?_, ?_, fun st => rfl⟩
  · intro tag hrt htag
    subst hrt
    simp [ontPrintFor, htag]
  · intro h
    rcases h with hrt | htag
    · subst hrt
      simp [ontPrintFor]
    · cases report_tags <;> simp [ontPrintFor, htag]

/-- Concrete ONT component with a tag identifier, for the C8 witness. -/
def ontCompW : OntComponent :=
  { experiment_name := "multiplexed_experiment_001"
    instrument_slot := 1
    tag_identifier := some "NB01" }

/-- Concrete barcode-expansion collaborator used in the C8 witness. -/
def bcW (parent tag : String) : List String := [parent ++ "/barcode_" ++ tag]

/-- Witness for claim C8: with tag reporting requested and a tag present, the
barcode expansion of the matched collection is printed; with tag reporting
not requested, the collection path itself is. -/
theorem claim_C8_witness :
    ontPrintFor true bcW ontCompW ["zone/run1"]
      = (["zone/run1"].flatMap fun coll => bcW coll "NB01") ∧
    ontPrintFor false bcW ontCompW ["zone/run1"] = ["zone/run1"] :=
  ⟨(claim_C8_barcode_expansion_guard true bcW ontCompW ["zone/run1"]).1 "NB01" rfl rfl,
   (claim_C8_barcode_expansion_guard false bcW ontCompW ["zone/run1"]).2.1 (Or.inl rfl)⟩

/-- Exit-code computation shared by every CLI entry point in the sources:
Python `if num_errors: exit(1)` exits with 1, and falling through ends the
process with exit code 0. -/
def exitCodeOf (num_errors : Nat) : Nat :=
  if num_errors ≠ 0 then 1 else 0

/-- Exit code of one `illumina_updates` invocation (lines 260-261). -/
def illumina_updates_exit (n : Nat) (evs : List IlmEvent) : Nat :=
  exitCodeOf (ilmRun n evs ilmInit).num_errors

/-- Exit code of one `consent_withdrawn` invocation (lines 153-154). -/
def consent_withdrawn_exit (evs : List (CwSample × CwOutcome)) : Nat :=
  exitCodeOf (cwRun evs cwInit).num_errors

/-- Exit code of one `ont_updates` invocation (lines 341-342). -/
def ont_updates_exit (report_tags : Bool) (bc : String → String → List String)
    (evs : List (OntComponent × OntOutcome)) : Nat :=
  exitCodeOf (ontRun report_tags bc evs ontInit).num_errors

/-- Exit code of `update_secondary_metadata.main` (lines 142-149) and
`apply_ont_metadata.main` (lines 114-121), given the
`(num_processed, num_updated, num_errors)` triple returned by the library
call. -/
def main_exit (counts : Nat × Nat × Nat) : Nat :=
  exitCodeOf counts.2.2

theorem exitCodeOf_spec (k : Nat) :
    (exitCodeOf k ≠ 0 ↔ 0 < k) ∧ (k = 0 → exitCodeOf k = 0) := by
  by_cases h : k = 0 <;> simp [exitCodeOf, h] <;> omega

/-- Claim C7: for every top-level workflow the process exit code is non-zero
exactly when the final `num_errors` is positive, and is zero when
`num_errors` is zero. -/
theorem claim_C7_exit_code_reflects_errors :
    (∀ (n : Nat) (evs : List IlmEvent),
      (illumina_updates_exit n evs ≠ 0 ↔ 0 < (ilmRun n evs ilmInit).num_errors) ∧
      ((ilmRun n evs ilmInit).num_errors = 0 → illumina_updates_exit n evs = 0)) ∧
    (∀ evs : List (CwSample × CwOutcome),
      (consent_withdrawn_exit evs ≠ 0 ↔ 0 < (cwRun evs cwInit).num_errors) ∧
      ((cwRun evs cwInit).num_errors = 0 → consent_withdrawn_exit evs = 0)) ∧
    (∀ (report_tags : Bool) (bc : String → String → List String)
        (evs : List (OntComponent × OntOutcome)),
      (ont_updates_exit report_tags bc evs ≠ 0
        ↔ 0 < (ontRun report_tags bc evs ontInit).num_errors) ∧
      ((ontRun report_tags bc evs ontInit).num_errors = 0
        → ont_updates_exit report_tags bc evs = 0)) ∧
    (∀ counts : Nat × Nat × Nat,
      (main_exit counts ≠ 0 ↔ 0 < counts.2.2) ∧
      (counts.2.2 = 0 → main_exit counts = 0)) :=
  ⟨fun n evs => exitCodeOf_spec (ilmRun n evs ilmInit).num_errors,
   fun evs => exitCodeOf_spec (cwRun evs cwInit).num_errors,
   fun report_tags bc evs => exitCodeOf_spec (ontRun report_tags bc evs ontInit).num_errors,
   fun counts => exitCodeOf_spec counts.2.2⟩

/-- Witness for claim C7: one erroring lookup makes the Illumina workflow exit
non-zero, and an error-free main invocation exits zero. -/
theorem claim_C7_witness :
    illumina_updates_exit 10 [(cex, .err)] ≠ 0 ∧ main_exit (5, 2, 0) = 0 :=
  ⟨((claim_C7_exit_code_reflects_errors.1 10 [(cex, .err)]).1).mpr (by decide),
   (claim_C7_exit_code_reflects_errors.2.2.2 (5, 2, 0)).2 rfl⟩

/-- A row of the synthetic ONT warehouse fixture: an experiment name, an
instrument position and a last-updated timestamp (in days). -/
structure OntRow where
  experiment_name : String
  instrument_position : Nat
  last_updated : Nat
deriving DecidableEq, Repr

/-- The fixture's early timestamp, in days. -/
def EARLY : Nat := 0

/-- The fixture's late timestamp, in days. -/
def LATE : Nat := 10

/-- The fixture's latest timestamp, in days. -/
def LATEST : Nat := 20

/-- Name of the i-th simple experiment of the fixture. -/
def simpleExptName (i : Nat) : String :=
  "simple_experiment_00" ++ toString i

/-- Name of the i-th multiplexed experiment of the fixture. -/
def multiplexedExptName (i : Nat) : String :=
  "multiplexed_experiment_00" ++ toString i

/-- Timestamp rule of the fixture: even-numbered experiments were done EARLY;
odd-numbered ones were done LATE on even instrument positions and LATEST on
odd positions. -/
def exptTimestamp (i pos : Nat) : Nat :=
  if i % 2 = 0 then EARLY else if pos % 2 = 0 then LATE else LATEST

/-- Modelled from the spec: the synthetic ONT warehouse fixture
(`ont_synthetic_mlwh`) is not part of the sources; per the spec and the test
comments it holds simple experiments 1-5 and multiplexed experiments 1-3,
each with instrument positions 1-5, timestamped by `exptTimestamp`. -/
def ontFixture : List OntRow :=
  ((((List.range 5).map (· + 1)).flatMap fun i =>
    ((List.range 5).map (· + 1)).map fun pos =>
      { experiment_name := simpleExptName i
        instrument_position := pos
        last_updated := exptTimestamp i pos }) : List OntRow)
  ++ (((List.range 3).map (· + 1)).flatMap fun i =>
    ((List.range 5).map (· + 1)).map fun pos =>
      { experiment_name := multiplexedExptName i
        instrument_position := pos
        last_updated := exptTimestamp i pos })

/-- First-occurrence deduplication of a name list. -/
def dedupAux (seen : List String) : List String → List String
  | [] => []
  | x :: xs => if x ∈ seen then dedupAux seen xs else x :: dedupAux (x :: seen) xs

/-- Modelled from the spec: `find_recent_expt` (module `npg_irods.ont`) is not
part of the sources, only its test is; per the spec it returns the distinct
experiment names whose warehouse rows were last changed at or after `since`,
in row order. -/
def find_recent_expt (rows : List OntRow) (since : Nat) : List String :=
  dedupAux []
    ((rows.filter fun row => since ≤ row.last_updated).map fun row => row.experiment_name)

/-- Claim C3: over the synthetic ONT fixture, `find_recent_expt` returns all
8 experiment names for `since = EARLY`, exactly the 5 odd-numbered names for
`since = LATE` minus one day, and the empty sequence for `since = LATEST`
plus one day. -/
theorem claim_C3_find_recent_expt_scenario :
    find_recent_expt ontFixture EARLY =
      ["simple_experiment_001", "simple_experiment_002", "simple_experiment_003",
       "simple_experiment_004", "simple_experiment_005",
       "multiplexed_experiment_001", "multiplexed_experiment_002",
       "multiplexed_experiment_003"] ∧
    find_recent_expt ontFixture (LATE - 1) =
      ["simple_experiment_001", "simple_experiment_003", "simple_experiment_005",
       "multiplexed_experiment_001", "multiplexed_experiment_003"] ∧
    find_recent_expt ontFixture (LATEST + 1) = [] := by
  refine ⟨?_, ?_, ?_⟩ <;> rfl
